import Mathlib

/-!
# Docker input of gogstash: container selection and the discovery loop

A shallow embedding of `input/docker/inputdocker.go`.

* `regexp.Regexp` is an external library type.  A compiled expression is
  represented by its `MatchString` predicate, and the compiler
  `regexp.MustCompile` is a parameter of the development (`none` stands for the
  panic on a malformed pattern).
* The Docker client and the sincedb are collaborators.  They are represented by
  a record of state-passing functions over an arbitrary world type `W`, so a
  collaborator may answer differently on every call.
* `Loop` is run on the finite list of lifecycle events delivered so far on
  `dockerEventChan`; it yields the trace of collaborator calls and goroutine
  launches, the outcome, and the final world.
-/

namespace Inputdocker

/-! ## Data model -/

/-- A compiled `*regexp.Regexp`, represented by its `MatchString` method. -/
structure Regexp where
  MatchString : String → Bool

/-- The struct `InputConfig`.  `CommonConfig.Type` is the field `TypeName`; the
live handles `client` and `sincedb` are the `Collaborators` record below, and
`EventChan` and `hostname` play no part in `Loop` or `isValidContainer`. -/
structure InputConfig where
  TypeName : String
  Host : String
  IncludePatterns : List String
  ExcludePatterns : List String
  SincePath : String
  ConnectionRetryInterval : Int
  includes : List Regexp
  excludes : List Regexp

/-- The function `DefaultInputConfig`: fields that the Go literal does not set
have their zero value (`nil` slices). -/
def DefaultInputConfig : InputConfig :=
  { TypeName := "docker"
    Host := "unix:///var/run/docker.sock"
    ConnectionRetryInterval := 10
    ExcludePatterns := ["gogstash"]
    SincePath := "sincedb"
    IncludePatterns := []
    includes := []
    excludes := [] }

/-- The loop `for _, pattern := range patterns { acc = append(acc, regexp.MustCompile(pattern)) }`
of the registered handler; `none` when `MustCompile` panics. -/
def appendCompiled (MustCompile : String → Option Regexp) :
    List Regexp → List String → Option (List Regexp)
  | acc, [] => some acc
  | acc, pattern :: rest =>
    match MustCompile pattern with
    | none => none
    | some re => appendCompiled MustCompile (acc ++ [re]) rest

/-- The pattern compilation performed by the handler registered in `init`
(lines 58-63): first the include patterns, then the exclude patterns. -/
def compilePatterns (MustCompile : String → Option Regexp) (defconf : InputConfig) :
    Option InputConfig :=
  match appendCompiled MustCompile defconf.includes defconf.IncludePatterns with
  | none => none
  | some incs =>
    match appendCompiled MustCompile defconf.excludes defconf.ExcludePatterns with
    | none => none
    | some excs => some { defconf with includes := incs, excludes := excs }

/-! ## The matcher -/

/-- The method `isValidContainer`.  Each inner `for ... { if re.MatchString(name) { return b } }`
is a `List.any`; the outer loop is the recursion on `names`. -/
def isValidContainer (t : InputConfig) : List String → Bool
  | [] => if t.includes.length > 0 then false else true
  | name :: rest =>
    if t.excludes.any (fun re => re.MatchString name) then false
    else if t.includes.any (fun re => re.MatchString name) then true
    else isValidContainer t rest

/-- Some exclude pattern of `t` matches `name`. -/
def MatchesExclude (t : InputConfig) (name : String) : Prop :=
  ∃ re ∈ t.excludes, re.MatchString name = true

/-- Some include pattern of `t` matches `name`. -/
def MatchesInclude (t : InputConfig) (name : String) : Prop :=
  ∃ re ∈ t.includes, re.MatchString name = true

instance (t : InputConfig) (name : String) : Decidable (MatchesExclude t name) :=
  decidable_of_iff (t.excludes.any (fun re => re.MatchString name) = true)
    (by simp [MatchesExclude])

instance (t : InputConfig) (name : String) : Decidable (MatchesInclude t name) :=
  decidable_of_iff (t.includes.any (fun re => re.MatchString name) = true)
    (by simp [MatchesInclude])

/-! ## A pattern compiler for the literal fragment

Used to run the scenarios: on a pattern made of ordinary characters, optionally
anchored by a leading `^`, `regexp.MustCompile(p).MatchString(s)` is a substring
test (a test at the start of `s` when anchored).  Patterns outside the fragment
are not in the domain of this instance. -/

/-- The characters that stand for themselves in a pattern. -/
def isLiteralChar (c : Char) : Bool :=
  c.isAlphanum || c == '/' || c == '-' || c == '_'

/-- The list `lit` occurs as a contiguous block of `s`. -/
def containsSubstr (lit s : List Char) : Bool :=
  s.tails.any (fun tl => lit.isPrefixOf tl)

/-- The pattern compiler restricted to the literal fragment. -/
def literalMustCompile (pattern : String) : Option Regexp :=
  match pattern.data with
  | '^' :: lit =>
    if lit.all isLiteralChar then some ⟨fun s => lit.isPrefixOf s.data⟩ else none
  | lit =>
    if lit.all isLiteralChar then some ⟨fun s => containsSubstr lit s.data⟩ else none

/-! ## The discovery loop -/

/-- The fields of `docker.APIContainers` that `Loop` reads. -/
structure APIContainers where
  ID : String
  Names : List String
  deriving DecidableEq, Repr

/-- The fields of `docker.Container` (the result of `InspectContainer`) that `Loop` reads. -/
structure Container where
  ID : String
  Name : String
  deriving DecidableEq, Repr

/-- The fields of `docker.APIEvents` that `Loop` reads. -/
structure APIEvents where
  Status : String
  ID : String
  deriving DecidableEq, Repr

/-- The first argument of `containerLogLoop`: the listed container on line 114, the
lifecycle event on line 141. -/
inductive Target where
  | container (c : APIContainers)
  | event (e : APIEvents)
  deriving DecidableEq, Repr

/-- The container identifier a Tailer is launched for. -/
def Target.ID : Target → String
  | .container c => c.ID
  | .event e => e.ID

/-- The observable steps of `Loop`: collaborator calls, `go t.containerLogLoop(..)`
launches and `log.Fatal`.  `sincedbGet` records the position returned (`none` on error). -/
inductive Action (Pos : Type) where
  | listContainers
  | sincedbGet (id : String) (since : Option Pos)
  | launch (arg : Target) (since : Pos)
  | addEventListener
  | inspectContainer (id : String)
  | logFatal (msg : String)
  deriving DecidableEq, Repr

/-- How far `Loop` got: `running` (blocked in `select`, ready for the next event),
`returned` (a plain `return`), or `fatal` (`log.Fatal` ended the process). -/
inductive Outcome where
  | running
  | returned
  | fatal
  deriving DecidableEq, Repr

/-- The collaborators `t.client` and `t.sincedb`, as functions that read and update a
world `W`.  A Go `error` is carried as its message. -/
structure Collaborators (W Pos : Type) where
  ListContainers : W → Except String (List APIContainers) × W
  Get : String → W → Except String Pos × W
  AddEventListener : W → Option String × W
  InspectContainer : String → W → Except String Container × W

/-- The result of running a piece of `Loop`. -/
structure Run (W Pos : Type) where
  trace : List (Action Pos)
  outcome : Outcome
  world : W

/-- The Tailers launched in a trace, in order, with their resume positions. -/
def launches {Pos : Type} (trace : List (Action Pos)) : List (Target × Pos) :=
  trace.filterMap (fun a => match a with
    | .launch arg since => some (arg, since)
    | _ => none)

/-- The container identifiers of the Tailers launched in a trace, in order. -/
def launchedIDs {Pos : Type} (trace : List (Action Pos)) : List String :=
  (launches trace).map (fun p => p.1.ID)

/-- The identifiers passed to `sincedb.Get` in a trace, in order. -/
def getCalls {Pos : Type} (trace : List (Action Pos)) : List String :=
  trace.filterMap (fun a => match a with
    | .sincedbGet id _ => some id
    | _ => none)

/-- The identifiers passed to `InspectContainer` in a trace, in order. -/
def inspectCalls {Pos : Type} (trace : List (Action Pos)) : List String :=
  trace.filterMap (fun a => match a with
    | .inspectContainer id => some id
    | _ => none)

/-- The loop `for _, container := range containers { ... }` of `Loop` (lines 105-115). -/
def startContainers {W Pos : Type} (t : InputConfig) (cl : Collaborators W Pos) :
    List APIContainers → W → Run W Pos
  | [], w => ⟨[], .running, w⟩
  | container :: rest, w =>
    if !isValidContainer t container.Names then
      startContainers t cl rest w
    else
      match cl.Get container.ID w with
      | (.error _, w1) =>
        ⟨[.sincedbGet container.ID none, .logFatal "get sincedb failed"], .fatal, w1⟩
      | (.ok since, w1) =>
        match startContainers t cl rest w1 with
        | ⟨tr, o, w2⟩ =>
          ⟨.sincedbGet container.ID (some since) :: .launch (.container container) since :: tr,
            o, w2⟩

/-- One iteration of `for { select { case dockerEvent := <-dockerEventChan: ... } }`
(lines 126-142). -/
def handleEvent {W Pos : Type} (t : InputConfig) (cl : Collaborators W Pos)
    (dockerEvent : APIEvents) (w : W) : Run W Pos :=
  if dockerEvent.Status = "start" then
    match cl.InspectContainer dockerEvent.ID w with
    | (.error _, w1) =>
      ⟨[.inspectContainer dockerEvent.ID, .logFatal "inspect container failed"], .fatal, w1⟩
    | (.ok container, w1) =>
      if !isValidContainer t [container.Name] then
        ⟨[.inspectContainer dockerEvent.ID], .returned, w1⟩
      else
        match cl.Get dockerEvent.ID w1 with
        | (.error _, w2) =>
          ⟨[.inspectContainer dockerEvent.ID, .sincedbGet dockerEvent.ID none,
            .logFatal "get sincedb failed"], .fatal, w2⟩
        | (.ok since, w2) =>
          ⟨[.inspectContainer dockerEvent.ID, .sincedbGet dockerEvent.ID (some since),
            .launch (.event dockerEvent) since], .running, w2⟩
  else
    ⟨[], .running, w⟩

/-- The receive loop `for { select { ... } }` (lines 124-144) on the events delivered so
far: it goes on to the next event only while the previous iteration left it running. -/
def listen {W Pos : Type} (t : InputConfig) (cl : Collaborators W Pos) :
    List APIEvents → W → Run W Pos
  | [], w => ⟨[], .running, w⟩
  | dockerEvent :: rest, w =>
    match handleEvent t cl dockerEvent w with
    | ⟨tr, .running, w1⟩ =>
      match listen t cl rest w1 with
      | ⟨tr2, o, w2⟩ => ⟨tr ++ tr2, o, w2⟩
    | r => r

/-- The method `Loop`, run on the lifecycle events `events` delivered on
`dockerEventChan` after the subscription. -/
def Loop {W Pos : Type} (t : InputConfig) (cl : Collaborators W Pos)
    (events : List APIEvents) (w : W) : Run W Pos :=
  match cl.ListContainers w with
  | (.error _, w1) =>
    ⟨[.listContainers, .logFatal "list docker container failed"], .fatal, w1⟩
  | (.ok containers, w1) =>
    match startContainers t cl containers w1 with
    | ⟨tr1, .running, w2⟩ =>
      match cl.AddEventListener w2 with
      | (some _, w3) =>
        ⟨.listContainers :: tr1 ++ [.addEventListener, .logFatal "listen docker event failed"],
          .fatal, w3⟩
      | (none, w3) =>
        match listen t cl events w3 with
        | ⟨tr2, o, w4⟩ => ⟨.listContainers :: tr1 ++ .addEventListener :: tr2, o, w4⟩
    | ⟨tr1, o, w2⟩ => ⟨.listContainers :: tr1, o, w2⟩

/-- The identifiers of the `"start"` events of a list, in order. -/
def startIDs (events : List APIEvents) : List String :=
  (events.filter (fun e => decide (e.Status = "start"))).map (fun e => e.ID)

/-- The trace of the starting phase when every lookup succeeds: for each accepted
container the `Get` call that returned `p`, then the launch with `p`. -/
def startingTrace {Pos : Type} (accepted : List APIContainers) (positions : List Pos) :
    List (Action Pos) :=
  (List.zipWith (fun c p => [Action.sincedbGet c.ID (some p), Action.launch (.container c) p])
    accepted positions).flatten

/-! ## Sample configurations and collaborators -/

/-- The default settings with the given pattern lists, before compilation. -/
def sampleSettings (includePatterns excludePatterns : List String) : InputConfig :=
  { DefaultInputConfig with
    IncludePatterns := includePatterns
    ExcludePatterns := excludePatterns }

/-- The settings above after `compilePatterns`, with `literalMustCompile` as compiler. -/
def sampleConfig (includePatterns excludePatterns : List String) : InputConfig :=
  (compilePatterns literalMustCompile (sampleSettings includePatterns excludePatterns)).getD
    (sampleSettings includePatterns excludePatterns)

/-- Collaborators that never fail.  The world counts the calls made so far; `Get`
answers with that count, so two lookups never return the same position.  `names`
maps a container identifier to the name `InspectContainer` reports. -/
def sampleClient (listing : List APIContainers) (names : String → String) :
    Collaborators Nat Nat where
  ListContainers := fun w => (.ok listing, w + 1)
  Get := fun _ w => (.ok w, w + 1)
  AddEventListener := fun w => (none, w + 1)
  InspectContainer := fun id w => (.ok ⟨id, names id⟩, w + 1)

/-- A listing of three running containers. -/
def sampleListing : List APIContainers :=
  [⟨"web", ["/web"]⟩, ⟨"gogstash", ["/gogstash"]⟩, ⟨"db", ["/db"]⟩]

/-- The name of a sample container: a leading slash before its identifier. -/
def slashName (id : String) : String := "/" ++ id

/-! ## Lemmas on the matcher -/

theorem any_excludes_iff (t : InputConfig) (name : String) :
    t.excludes.any (fun re => re.MatchString name) = true ↔ MatchesExclude t name := by
  simp [MatchesExclude]

theorem any_includes_iff (t : InputConfig) (name : String) :
    t.includes.any (fun re => re.MatchString name) = true ↔ MatchesInclude t name := by
  simp [MatchesInclude]

theorem isValidContainer_nil (t : InputConfig) :
    isValidContainer t [] = t.includes.isEmpty := by
  cases h : t.includes <;> simp [isValidContainer, h]

theorem isValidContainer_cons_excluded (t : InputConfig) (name : String) (rest : List String)
    (h : MatchesExclude t name) : isValidContainer t (name :: rest) = false := by
  have h1 := (any_excludes_iff t name).mpr h
  simp only [isValidContainer, h1, if_true]

theorem isValidContainer_cons_included (t : InputConfig) (name : String) (rest : List String)
    (hx : ¬ MatchesExclude t name) (hi : MatchesInclude t name) :
    isValidContainer t (name :: rest) = true := by
  have h1 : t.excludes.any (fun re => re.MatchString name) = false := by
    rw [← Bool.not_eq_true, any_excludes_iff]; exact hx
  have h2 := (any_includes_iff t name).mpr hi
  simp [isValidContainer, h1, h2]

theorem isValidContainer_cons_neither (t : InputConfig) (name : String) (rest : List String)
    (hx : ¬ MatchesExclude t name) (hi : ¬ MatchesInclude t name) :
    isValidContainer t (name :: rest) = isValidContainer t rest := by
  have h1 : t.excludes.any (fun re => re.MatchString name) = false := by
    rw [← Bool.not_eq_true, any_excludes_iff]; exact hx
  have h2 : t.includes.any (fun re => re.MatchString name) = false := by
    rw [← Bool.not_eq_true, any_includes_iff]; exact hi
  simp [isValidContainer, h1, h2]

theorem isValidContainer_no_match (t : InputConfig) (names : List String)
    (hx : ∀ n ∈ names, ¬ MatchesExclude t n) (hi : ∀ n ∈ names, ¬ MatchesInclude t n) :
    isValidContainer t names = t.includes.isEmpty := by
  induction names with
  | nil => exact isValidContainer_nil t
  | cons name rest ih =>
    rw [isValidContainer_cons_neither t name rest (hx name (List.mem_cons_self _ _))
      (hi name (List.mem_cons_self _ _))]
    exact ih (fun n hn => hx n (List.mem_cons_of_mem _ hn))
      (fun n hn => hi n (List.mem_cons_of_mem _ hn))

theorem not_matchesInclude_of_nil (t : InputConfig) (h : t.includes = []) (name : String) :
    ¬ MatchesInclude t name := by
  simp [MatchesInclude, h]

/-- The index form of the decision: accepted exactly when some name is included with no
excluded name up to and including it, or nothing is excluded and no allow-list exists. -/
theorem isValidContainer_iff_index (t : InputConfig) (names : List String) :
    isValidContainer t names = true ↔
      ((∃ (i : Nat) (n : String), names[i]? = some n ∧ MatchesInclude t n ∧
          ∀ (j : Nat) (m : String), j ≤ i → names[j]? = some m → ¬ MatchesExclude t m) ∨
       (t.includes = [] ∧ ∀ n ∈ names, ¬ MatchesExclude t n)) := by
  induction names with
  | nil =>
    rw [isValidContainer_nil]
    simp [List.isEmpty_iff]
  | cons name rest ih =>
    by_cases hx : MatchesExclude t name
    · rw [isValidContainer_cons_excluded t name rest hx]
      constructor
      · intro h; cases h
      · rintro (⟨i, n, _, _, hall⟩ | ⟨_, hall⟩)
        · exact absurd hx (hall 0 name (Nat.zero_le i) (by simp))
        · exact absurd hx (hall name (List.mem_cons_self _ _))
    · by_cases hi : MatchesInclude t name
      · rw [isValidContainer_cons_included t name rest hx hi]
        refine ⟨fun _ => Or.inl ⟨0, name, by simp, hi, ?_⟩, fun _ => rfl⟩
        intro j m hj hm
        have hj0 : j = 0 := Nat.le_zero.mp hj
        subst hj0
        simp at hm
        subst hm
        exact hx
      · rw [isValidContainer_cons_neither t name rest hx hi, ih]
        constructor
        · rintro (⟨i, n, hn, hin, hall⟩ | ⟨he, hall⟩)
          · refine Or.inl ⟨i + 1, n, by simpa using hn, hin, ?_⟩
            intro j m hj hm
            cases j with
            | zero =>
              simp at hm
              subst hm
              exact hx
            | succ k => exact hall k m (Nat.le_of_succ_le_succ hj) (by simpa using hm)
          · refine Or.inr ⟨he, ?_⟩
            intro n hn
            rcases List.mem_cons.mp hn with rfl | hn
            · exact hx
            · exact hall n hn
        · rintro (⟨i, n, hn, hin, hall⟩ | ⟨he, hall⟩)
          · cases i with
            | zero =>
              simp at hn
              subst hn
              exact absurd hin hi
            | succ k =>
              refine Or.inl ⟨k, n, by simpa using hn, hin, ?_⟩
              intro j m hj hm
              exact hall (j + 1) m (Nat.succ_le_succ hj) (by simpa using hm)
          · exact Or.inr ⟨he, fun n hn => hall n (List.mem_cons_of_mem _ hn)⟩

/-- The decision is taken on the first name that matches any pattern. -/
theorem isValidContainer_eq_find (t : InputConfig) (names : List String) :
    isValidContainer t names =
      (match names.find? (fun n => decide (MatchesExclude t n ∨ MatchesInclude t n)) with
       | some n => !decide (MatchesExclude t n)
       | none => t.includes.isEmpty) := by
  induction names with
  | nil => simpa using isValidContainer_nil t
  | cons name rest ih =>
    by_cases hx : MatchesExclude t name
    · rw [isValidContainer_cons_excluded t name rest hx]
      simp [List.find?, hx]
    · by_cases hi : MatchesInclude t name
      · rw [isValidContainer_cons_included t name rest hx hi]
        simp [List.find?, hx, hi]
      · rw [isValidContainer_cons_neither t name rest hx hi, ih]
        simp [List.find?, hx, hi]

theorem containsSubstr_iff (lit s : List Char) :
    containsSubstr lit s = true ↔ lit <:+: s := by
  unfold containsSubstr
  rw [List.any_eq_true]
  constructor
  · rintro ⟨tl, htl, hp⟩
    rw [List.mem_tails] at htl
    rw [List.isPrefixOf_iff_prefix] at hp
    obtain ⟨a, ha⟩ := htl
    obtain ⟨b, hb⟩ := hp
    exact ⟨a, b, by rw [← ha, ← hb, List.append_assoc]⟩
  · rintro ⟨a, b, hab⟩
    refine ⟨lit ++ b, ?_, ?_⟩
    · rw [List.mem_tails]
      exact ⟨a, by rw [← hab, List.append_assoc]⟩
    · rw [List.isPrefixOf_iff_prefix]
      exact ⟨b, rfl⟩

/-! ## Lemmas on the discovery loop -/

theorem launchedIDs_nil {Pos : Type} : launchedIDs ([] : List (Action Pos)) = [] := rfl

theorem launchedIDs_append {Pos : Type} (a b : List (Action Pos)) :
    launchedIDs (a ++ b) = launchedIDs a ++ launchedIDs b := by
  simp [launchedIDs, launches, List.filterMap_append]

theorem startContainers_all_ok {W Pos : Type} (t : InputConfig) (cl : Collaborators W Pos)
    (hGet : ∀ id w, ∃ p w1, cl.Get id w = (.ok p, w1)) (cs : List APIContainers) (w : W) :
    ∃ positions w2,
      positions.length = (cs.filter (fun c => isValidContainer t c.Names)).length ∧
      startContainers t cl cs w =
        ⟨startingTrace (cs.filter (fun c => isValidContainer t c.Names)) positions,
          .running, w2⟩ := by
  induction cs generalizing w with
  | nil => exact ⟨[], w, rfl, rfl⟩
  | cons c rest ih =>
    cases hv : isValidContainer t c.Names with
    | false =>
      obtain ⟨ps, w2, hl, hs⟩ := ih w
      refine ⟨ps, w2, ?_, ?_⟩
      · simpa [List.filter_cons, hv] using hl
      · simp [startContainers, hv, List.filter_cons, hs]
    | true =>
      obtain ⟨p, w1, hp⟩ := hGet c.ID w
      obtain ⟨ps, w2, hl, hs⟩ := ih w1
      refine ⟨p :: ps, w2, ?_, ?_⟩
      · simp [List.filter_cons, hv, hl]
      · simp [startContainers, hv, List.filter_cons, hp, hs, startingTrace]

theorem startingTrace_launches {Pos : Type} (accepted : List APIContainers)
    (positions : List Pos) :
    launches (startingTrace accepted positions) =
      List.zipWith (fun c p => (Target.container c, p)) accepted positions := by
  induction accepted generalizing positions with
  | nil => simp [startingTrace, launches]
  | cons c rest ih =>
    cases positions with
    | nil => simp [startingTrace, launches]
    | cons p ps =>
      have h := ih ps
      simp only [startingTrace, launches] at h ⊢
      simp [List.filterMap_cons, h]

theorem startingTrace_getCalls {Pos : Type} (accepted : List APIContainers)
    (positions : List Pos) (hl : positions.length = accepted.length) :
    getCalls (startingTrace accepted positions) = accepted.map (fun c => c.ID) := by
  induction accepted generalizing positions with
  | nil => simp [startingTrace, getCalls]
  | cons c rest ih =>
    cases positions with
    | nil => simp at hl
    | cons p ps =>
      have h := ih ps (by simpa using hl)
      simp only [startingTrace, getCalls] at h ⊢
      simp [List.filterMap_cons, h]

theorem startContainers_launched_sublist {W Pos : Type} (t : InputConfig)
    (cl : Collaborators W Pos) (cs : List APIContainers) (w : W) :
    (launchedIDs (startContainers t cl cs w).trace).Sublist (cs.map (fun c => c.ID)) := by
  induction cs generalizing w with
  | nil => simp [startContainers, launchedIDs, launches]
  | cons c rest ih =>
    cases hv : isValidContainer t c.Names with
    | false =>
      simp only [startContainers, hv, Bool.not_false, if_true, List.map_cons]
      exact List.Sublist.cons _ (ih w)
    | true =>
      rcases hg : cl.Get c.ID w with ⟨r, w1⟩
      cases r with
      | error e => simp [startContainers, hv, hg, launchedIDs, launches]
      | ok p =>
        have h := ih w1
        rcases hs : startContainers t cl rest w1 with ⟨tr, o, w2⟩
        rw [hs] at h
        simp only [startContainers, hv, hg, hs, List.map_cons]
        simpa [launchedIDs, launches, List.filterMap_cons, Target.ID] using h

theorem handleEvent_not_start {W Pos : Type} (t : InputConfig) (cl : Collaborators W Pos)
    (ev : APIEvents) (w : W) (h : ev.Status ≠ "start") :
    handleEvent t cl ev w = ⟨[], .running, w⟩ := by
  simp [handleEvent, h]

theorem handleEvent_launched_sublist {W Pos : Type} (t : InputConfig)
    (cl : Collaborators W Pos) (ev : APIEvents) (w : W) :
    (launchedIDs (handleEvent t cl ev w).trace).Sublist (startIDs [ev]) := by
  by_cases hst : ev.Status = "start"
  · rcases hi : cl.InspectContainer ev.ID w with ⟨r, w1⟩
    cases r with
    | error e => simp [handleEvent, hst, hi, launchedIDs, launches]
    | ok c =>
      cases hv : isValidContainer t [c.Name] with
      | false => simp [handleEvent, hst, hi, hv, launchedIDs, launches]
      | true =>
        rcases hg : cl.Get ev.ID w1 with ⟨r2, w2⟩
        cases r2 with
        | error e => simp [handleEvent, hst, hi, hv, hg, launchedIDs, launches]
        | ok p => simp [handleEvent, hst, hi, hv, hg, launchedIDs, launches, startIDs, Target.ID]
  · simp [handleEvent, hst, launchedIDs, launches]

theorem startIDs_cons (ev : APIEvents) (rest : List APIEvents) :
    startIDs (ev :: rest) = startIDs [ev] ++ startIDs rest := by
  by_cases h : ev.Status = "start" <;> simp [startIDs, List.filter_cons, h]

theorem listen_launched_sublist {W Pos : Type} (t : InputConfig)
    (cl : Collaborators W Pos) (events : List APIEvents) (w : W) :
    (launchedIDs (listen t cl events w).trace).Sublist (startIDs events) := by
  induction events generalizing w with
  | nil => simp [listen, launchedIDs, launches]
  | cons ev rest ih =>
    have h1 := handleEvent_launched_sublist t cl ev w
    rw [startIDs_cons]
    rcases hh : handleEvent t cl ev w with ⟨tr, o, w1⟩
    rw [hh] at h1
    cases o with
    | running =>
      have h2 := ih w1
      rcases hl : listen t cl rest w1 with ⟨tr2, o2, w2⟩
      rw [hl] at h2
      simp only [listen, hh, hl]
      rw [launchedIDs_append]
      exact List.Sublist.append h1 h2
    | returned =>
      simp only [listen, hh]
      exact h1.trans (List.sublist_append_left _ _)
    | fatal =>
      simp only [listen, hh]
      exact h1.trans (List.sublist_append_left _ _)

theorem listen_cons_not_start {W Pos : Type} (t : InputConfig) (cl : Collaborators W Pos)
    (ev : APIEvents) (rest : List APIEvents) (w : W) (h : ev.Status ≠ "start") :
    listen t cl (ev :: rest) w = listen t cl rest w := by
  rcases hl : listen t cl rest w with ⟨tr2, o, w2⟩
  simp [listen, handleEvent_not_start t cl ev w h, hl]

/-- A `"start"` event for a container the matcher rejects makes the receive loop return:
the events after it are never handled. -/
theorem listen_cons_rejected {W Pos : Type} (t : InputConfig) (cl : Collaborators W Pos)
    (ev : APIEvents) (rest : List APIEvents) (w w1 : W) (c : Container)
    (hst : ev.Status = "start") (hi : cl.InspectContainer ev.ID w = (.ok c, w1))
    (hv : isValidContainer t [c.Name] = false) :
    listen t cl (ev :: rest) w = ⟨[.inspectContainer ev.ID], .returned, w1⟩ := by
  simp [listen, handleEvent, hst, hi, hv]

theorem Loop_launched_sublist {W Pos : Type} (t : InputConfig) (cl : Collaborators W Pos)
    (events : List APIEvents) (w w1 : W) (L : List APIContainers)
    (hList : cl.ListContainers w = (.ok L, w1)) :
    (launchedIDs (Loop t cl events w).trace).Sublist
      (L.map (fun c => c.ID) ++ startIDs events) := by
  have h1 := startContainers_launched_sublist t cl L w1
  rcases hs : startContainers t cl L w1 with ⟨tr1, o, w2⟩
  rw [hs] at h1
  have hcons : ∀ tr : List (Action Pos),
      launchedIDs (Action.listContainers :: tr) = launchedIDs tr := by
    intro tr; simp [launchedIDs, launches, List.filterMap_cons]
  cases o with
  | running =>
    rcases ha : cl.AddEventListener w2 with ⟨r, w3⟩
    cases r with
    | some e =>
      simp only [Loop, hList, hs, ha]
      rw [launchedIDs_append, hcons]
      have h0 : launchedIDs
          ([Action.addEventListener, Action.logFatal "listen docker event failed"] :
            List (Action Pos)) = [] := by
        simp [launchedIDs, launches]
      rw [h0, List.append_nil]
      exact h1.trans (List.sublist_append_left _ _)
    | none =>
      have h2 := listen_launched_sublist t cl events w3
      rcases hl : listen t cl events w3 with ⟨tr2, o2, w4⟩
      rw [hl] at h2
      simp only [Loop, hList, hs, ha, hl]
      rw [launchedIDs_append, hcons]
      have h3 : launchedIDs (Action.addEventListener :: tr2) = launchedIDs tr2 := by
        simp [launchedIDs, launches, List.filterMap_cons]
      rw [h3]
      exact List.Sublist.append h1 h2
  | returned =>
    simp only [Loop, hList, hs]
    rw [hcons]
    exact h1.trans (List.sublist_append_left _ _)
  | fatal =>
    simp only [Loop, hList, hs]
    rw [hcons]
    exact h1.trans (List.sublist_append_left _ _)

theorem isValidContainer_no_includes (t : InputConfig) (h : t.includes = [])
    (names : List String) :
    isValidContainer t names = true ↔ ∀ n ∈ names, ¬ MatchesExclude t n := by
  rw [isValidContainer_iff_index]
  constructor
  · rintro (⟨i, n, _, hin, _⟩ | ⟨_, hall⟩)
    · exact absurd hin (not_matchesInclude_of_nil t h n)
    · exact hall
  · intro hall
    exact Or.inr ⟨h, hall⟩

/-! ## The matcher: decisions -/

/-- C1, as stated, fails: with include pattern `web` and exclude pattern `gogstash`, the
names `/web`, `/gogstash` contain a name matching the exclude pattern, yet
`isValidContainer` answers true, because `/web` is decided first. -/
theorem exclusion_dominance_counterexample :
    "/gogstash" ∈ ["/web", "/gogstash"] ∧
    MatchesExclude (sampleConfig ["web"] ["gogstash"]) "/gogstash" ∧
    isValidContainer (sampleConfig ["web"] ["gogstash"]) ["/web", "/gogstash"] = true := by
  decide

/-- C1, amended: if a name matches an exclude pattern and no name before it in the
sequence matches an include pattern, `isValidContainer` returns false, whatever the
names after it and whether or not that name itself matches an include pattern. -/
theorem exclusion_before_include (t : InputConfig) (pre post : List String) (n : String)
    (hx : MatchesExclude t n) (hpre : ∀ m ∈ pre, ¬ MatchesInclude t m) :
    isValidContainer t (pre ++ n :: post) = false := by
  induction pre with
  | nil => exact isValidContainer_cons_excluded t n post hx
  | cons m rest ih =>
    by_cases hm : MatchesExclude t m
    · exact isValidContainer_cons_excluded t m _ hm
    · rw [List.cons_append,
        isValidContainer_cons_neither t m _ hm (hpre m (List.mem_cons_self _ _))]
      exact ih (fun k hk => hpre k (List.mem_cons_of_mem _ hk))

theorem exclusion_before_include_witness :
    isValidContainer (sampleConfig ["web"] ["gogstash"])
      (["/api"] ++ "/gogstash-web" :: ["/web"]) = false :=
  exclusion_before_include (sampleConfig ["web"] ["gogstash"]) ["/api"] ["/web"]
    "/gogstash-web" (by decide) (by decide)

/-- C2: when the include list is non-empty, no name matches an exclude pattern and no
name matches an include pattern, `isValidContainer` returns false. -/
theorem default_deny_under_allow_list (t : InputConfig) (names : List String)
    (hne : t.includes ≠ [])
    (hx : ∀ n ∈ names, ¬ MatchesExclude t n) (hi : ∀ n ∈ names, ¬ MatchesInclude t n) :
    isValidContainer t names = false := by
  rw [isValidContainer_no_match t names hx hi]
  cases h : t.includes with
  | nil => exact absurd h hne
  | cons re rest => rfl

/-- The scenario of C2: names `/api`, no excludes, includes `^web`. -/
theorem default_deny_under_allow_list_witness :
    (sampleConfig ["^web"] []).IncludePatterns = ["^web"] ∧
    (sampleConfig ["^web"] []).ExcludePatterns = [] ∧
    isValidContainer (sampleConfig ["^web"] []) ["/api"] = false :=
  ⟨rfl, rfl, default_deny_under_allow_list (sampleConfig ["^web"] []) ["/api"]
    (List.ne_nil_of_length_pos (by decide))
    (by decide) (by decide)⟩

/-- C3: when the include list is empty and no name matches an exclude pattern (the empty
sequence of names included), `isValidContainer` returns true. -/
theorem default_allow (t : InputConfig) (names : List String)
    (he : t.includes = []) (hx : ∀ n ∈ names, ¬ MatchesExclude t n) :
    isValidContainer t names = true :=
  (isValidContainer_no_includes t he names).mpr hx

theorem default_allow_witness :
    isValidContainer (sampleConfig [] ["gogstash"]) ["/web-1", "/db"] = true ∧
    isValidContainer (sampleConfig [] ["gogstash"]) [] = true :=
  ⟨default_allow (sampleConfig [] ["gogstash"]) ["/web-1", "/db"] rfl (by decide),
   default_allow (sampleConfig [] ["gogstash"]) [] rfl (by decide)⟩

/-- C4: when no name matches an exclude pattern and some name matches an include
pattern, `isValidContainer` returns true. -/
theorem include_match_monitors (t : InputConfig) (names : List String)
    (hx : ∀ n ∈ names, ¬ MatchesExclude t n) (hi : ∃ n ∈ names, MatchesInclude t n) :
    isValidContainer t names = true := by
  induction names with
  | nil =>
    obtain ⟨n, hn, _⟩ := hi
    cases hn
  | cons name rest ih =>
    have hxn := hx name (List.mem_cons_self _ _)
    by_cases hin : MatchesInclude t name
    · exact isValidContainer_cons_included t name rest hxn hin
    · rw [isValidContainer_cons_neither t name rest hxn hin]
      apply ih (fun n hn => hx n (List.mem_cons_of_mem _ hn))
      obtain ⟨n, hn, hm⟩ := hi
      rcases List.mem_cons.mp hn with rfl | hn
      · exact absurd hm hin
      · exact ⟨n, hn, hm⟩

theorem include_match_monitors_witness :
    isValidContainer (sampleConfig ["^web"] ["gogstash"]) ["/api", "web-2"] = true :=
  include_match_monitors (sampleConfig ["^web"] ["gogstash"]) ["/api", "web-2"]
    (by decide) (by decide)

/-- C5: for a pattern compiler under which `gogstash` matches exactly the strings that
contain `gogstash`, compiling the patterns of `DefaultInputConfig` succeeds, the
patterns are the exclude pattern `gogstash` and no include pattern, and
`isValidContainer` returns true exactly when no name contains `gogstash`; so
`/web-1` is monitored and `/gogstash-shipper` is skipped. -/
theorem default_config_skips_gogstash (MustCompile : String → Option Regexp) (re : Regexp)
    (hc : MustCompile "gogstash" = some re)
    (hm : ∀ s : String, re.MatchString s = true ↔ "gogstash".data <:+: s.data) :
    ∃ conf, compilePatterns MustCompile DefaultInputConfig = some conf ∧
      conf.ExcludePatterns = ["gogstash"] ∧ conf.IncludePatterns = [] ∧
      (∀ names, isValidContainer conf names = true ↔
        ∀ n ∈ names, ¬ "gogstash".data <:+: n.data) ∧
      isValidContainer conf ["/web-1"] = true ∧
      isValidContainer conf ["/gogstash-shipper"] = false := by
  have hchar : ∀ names : List String,
      isValidContainer { DefaultInputConfig with includes := [], excludes := [re] } names = true ↔
        ∀ n ∈ names, ¬ "gogstash".data <:+: n.data := by
    intro names
    rw [isValidContainer_no_includes _ rfl]
    constructor
    · intro h n hn hsub
      exact h n hn ⟨re, by simp, (hm n).mpr hsub⟩
    · rintro h n hn ⟨r, hr, hmatch⟩
      have hr2 : r = re := by simpa using hr
      subst hr2
      exact h n hn ((hm n).mp hmatch)
  refine ⟨{ DefaultInputConfig with includes := [], excludes := [re] }, ?_, rfl, rfl, hchar,
    ?_, ?_⟩
  · simp [compilePatterns, appendCompiled, DefaultInputConfig, hc]
  · rw [hchar]
    decide
  · rw [← Bool.not_eq_true, hchar]
    decide

theorem default_config_skips_gogstash_witness :
    ∃ conf, compilePatterns literalMustCompile DefaultInputConfig = some conf ∧
      conf.ExcludePatterns = ["gogstash"] ∧ conf.IncludePatterns = [] ∧
      (∀ names, isValidContainer conf names = true ↔
        ∀ n ∈ names, ¬ "gogstash".data <:+: n.data) ∧
      isValidContainer conf ["/web-1"] = true ∧
      isValidContainer conf ["/gogstash-shipper"] = false :=
  default_config_skips_gogstash literalMustCompile
    ⟨fun s => containsSubstr "gogstash".data s.data⟩ rfl
    (fun s => containsSubstr_iff "gogstash".data s.data)

/-- C10: `isValidContainer` returns true exactly when (a) some name at an index `i`
matches an include pattern while no name at an index `j ≤ i` matches an exclude
pattern, or (b) the include list is empty and no name matches an exclude pattern.
Equivalently the first name matching any pattern decides, excludes first; with no such
name the result is true exactly when the include list is empty. -/
theorem isValidContainer_first_decisive (t : InputConfig) (names : List String) :
    (isValidContainer t names = true ↔
      ((∃ (i : Nat) (n : String), names[i]? = some n ∧ MatchesInclude t n ∧
          ∀ (j : Nat) (m : String), j ≤ i → names[j]? = some m → ¬ MatchesExclude t m) ∨
       (t.includes = [] ∧ ∀ n ∈ names, ¬ MatchesExclude t n))) ∧
    isValidContainer t names =
      (match names.find? (fun n => decide (MatchesExclude t n ∨ MatchesInclude t n)) with
       | some n => !decide (MatchesExclude t n)
       | none => t.includes.isEmpty) :=
  ⟨isValidContainer_iff_index t names, isValidContainer_eq_find t names⟩

/-! ## The discovery loop: behaviour -/

/-- C6, evaluated on the code: with the exclude pattern `gogstash`, a `"start"` event for
the rejected container `gogstash-shipper` makes `Loop` return, so the following `"start"`
event for the accepted container `web-1` launches nothing, although the same event
arriving first does launch a Tailer. -/
theorem rejected_start_event_ends_loop :
    isValidContainer (sampleConfig [] ["gogstash"]) [slashName "gogstash-shipper"] = false ∧
    isValidContainer (sampleConfig [] ["gogstash"]) [slashName "web-1"] = true ∧
    (Loop (sampleConfig [] ["gogstash"]) (sampleClient [] slashName)
      [⟨"start", "gogstash-shipper"⟩, ⟨"start", "web-1"⟩] 0).outcome = Outcome.returned ∧
    launchedIDs (Loop (sampleConfig [] ["gogstash"]) (sampleClient [] slashName)
      [⟨"start", "gogstash-shipper"⟩, ⟨"start", "web-1"⟩] 0).trace = [] ∧
    inspectCalls (Loop (sampleConfig [] ["gogstash"]) (sampleClient [] slashName)
      [⟨"start", "gogstash-shipper"⟩, ⟨"start", "web-1"⟩] 0).trace = ["gogstash-shipper"] ∧
    launchedIDs (Loop (sampleConfig [] ["gogstash"]) (sampleClient [] slashName)
      [⟨"start", "web-1"⟩] 0).trace = ["web-1"] := by
  decide

/-- C7, as stated, fails: every collaborator call succeeds, the listing holds the
accepted container `web`, and a `"start"` event for `web` follows; `Loop` launches a
Tailer for `web` twice and is still listening. -/
theorem second_tailer_counterexample :
    launchedIDs (Loop (sampleConfig [] ["gogstash"])
      (sampleClient [⟨"web", ["/web"]⟩] slashName) [⟨"start", "web"⟩] 0).trace
      = ["web", "web"] ∧
    ¬ (launchedIDs (Loop (sampleConfig [] ["gogstash"])
      (sampleClient [⟨"web", ["/web"]⟩] slashName) [⟨"start", "web"⟩] 0).trace).Nodup ∧
    (Loop (sampleConfig [] ["gogstash"])
      (sampleClient [⟨"web", ["/web"]⟩] slashName) [⟨"start", "web"⟩] 0).outcome
      = Outcome.running := by
  decide

/-- C7, amended: `Loop` keeps no record of the identifiers it launched; it launches at
most once per listed container and once per `"start"` event.  So when the identifiers of
the listed containers and of the `"start"` events are pairwise distinct, no identifier
gets a second Tailer. -/
theorem launched_ids_nodup {W Pos : Type} (t : InputConfig) (cl : Collaborators W Pos)
    (events : List APIEvents) (w w1 : W) (L : List APIContainers)
    (hList : cl.ListContainers w = (.ok L, w1))
    (hnd : (L.map (fun c => c.ID) ++ startIDs events).Nodup) :
    (launchedIDs (Loop t cl events w).trace).Sublist
      (L.map (fun c => c.ID) ++ startIDs events) ∧
    (launchedIDs (Loop t cl events w).trace).Nodup :=
  ⟨Loop_launched_sublist t cl events w w1 L hList,
   (Loop_launched_sublist t cl events w w1 L hList).nodup hnd⟩

theorem launched_ids_nodup_witness :
    (launchedIDs (Loop (sampleConfig [] ["gogstash"])
      (sampleClient [⟨"web", ["/web"]⟩, ⟨"gogstash", ["/gogstash"]⟩] slashName)
      [⟨"stop", "web"⟩, ⟨"start", "api"⟩] 0).trace).Sublist
      ([⟨"web", ["/web"]⟩, ⟨"gogstash", ["/gogstash"]⟩].map (fun c : APIContainers => c.ID)
        ++ startIDs [⟨"stop", "web"⟩, ⟨"start", "api"⟩]) ∧
    (launchedIDs (Loop (sampleConfig [] ["gogstash"])
      (sampleClient [⟨"web", ["/web"]⟩, ⟨"gogstash", ["/gogstash"]⟩] slashName)
      [⟨"stop", "web"⟩, ⟨"start", "api"⟩] 0).trace).Nodup :=
  launched_ids_nodup (sampleConfig [] ["gogstash"])
    (sampleClient [⟨"web", ["/web"]⟩, ⟨"gogstash", ["/gogstash"]⟩] slashName)
    [⟨"stop", "web"⟩, ⟨"start", "api"⟩] 0 1 [⟨"web", ["/web"]⟩, ⟨"gogstash", ["/gogstash"]⟩]
    rfl (by decide)

/-- C8: an event whose status is not `"start"` is handled with an empty trace (no
`InspectContainer` call, no sincedb `Get` call, no launch), leaves the world unchanged
and the loop running, and the receive loop goes on with the next event. -/
theorem non_start_event_ignored {W Pos : Type} (t : InputConfig) (cl : Collaborators W Pos)
    (ev : APIEvents) (w : W) (h : ev.Status ≠ "start") :
    handleEvent t cl ev w = ⟨[], .running, w⟩ ∧
    inspectCalls (handleEvent t cl ev w).trace = [] ∧
    getCalls (handleEvent t cl ev w).trace = [] ∧
    launches (handleEvent t cl ev w).trace = [] ∧
    ∀ rest, listen t cl (ev :: rest) w = listen t cl rest w := by
  have h0 := handleEvent_not_start t cl ev w h
  refine ⟨h0, ?_, ?_, ?_, fun rest => listen_cons_not_start t cl ev rest w h⟩
  · rw [h0]; rfl
  · rw [h0]; rfl
  · rw [h0]; rfl

theorem non_start_event_ignored_witness :
    handleEvent (sampleConfig [] ["gogstash"]) (sampleClient [] slashName) ⟨"stop", "web"⟩ 7
      = ⟨[], .running, 7⟩ ∧
    inspectCalls (handleEvent (sampleConfig [] ["gogstash"]) (sampleClient [] slashName)
      ⟨"stop", "web"⟩ 7).trace = [] ∧
    getCalls (handleEvent (sampleConfig [] ["gogstash"]) (sampleClient [] slashName)
      ⟨"stop", "web"⟩ 7).trace = [] ∧
    launches (handleEvent (sampleConfig [] ["gogstash"]) (sampleClient [] slashName)
      ⟨"stop", "web"⟩ 7).trace = [] ∧
    ∀ rest, listen (sampleConfig [] ["gogstash"]) (sampleClient [] slashName)
        (⟨"stop", "web"⟩ :: rest) 7
      = listen (sampleConfig [] ["gogstash"]) (sampleClient [] slashName) rest 7 :=
  non_start_event_ignored (sampleConfig [] ["gogstash"]) (sampleClient [] slashName)
    ⟨"stop", "web"⟩ 7 (by decide)

/-- C9: when `ListContainers` succeeds with `L` and every sincedb `Get` succeeds, the
trace of `Loop` up to the subscription is, for each container of `L` that
`isValidContainer` accepts, in listing order, the `Get` call for its identifier followed
by the launch with the position that call returned; rejected containers contribute no
`Get` call and no launch. -/
theorem starting_phase_launches {W Pos : Type} (t : InputConfig) (cl : Collaborators W Pos)
    (events : List APIEvents) (w w1 : W) (L : List APIContainers)
    (hList : cl.ListContainers w = (.ok L, w1))
    (hGet : ∀ id w, ∃ p w2, cl.Get id w = (.ok p, w2)) :
    ∃ positions rest,
      positions.length = (L.filter (fun c => isValidContainer t c.Names)).length ∧
      (Loop t cl events w).trace =
        Action.listContainers ::
          (startingTrace (L.filter (fun c => isValidContainer t c.Names)) positions ++
            Action.addEventListener :: rest) ∧
      launches (startingTrace (L.filter (fun c => isValidContainer t c.Names)) positions) =
        List.zipWith (fun c p => (Target.container c, p))
          (L.filter (fun c => isValidContainer t c.Names)) positions ∧
      getCalls (startingTrace (L.filter (fun c => isValidContainer t c.Names)) positions) =
        (L.filter (fun c => isValidContainer t c.Names)).map (fun c => c.ID) := by
  obtain ⟨ps, w2, hl, hs⟩ := startContainers_all_ok t cl hGet L w1
  rcases ha : cl.AddEventListener w2 with ⟨r, w3⟩
  cases r with
  | some e =>
    refine ⟨ps, [Action.logFatal "listen docker event failed"], hl, ?_,
      startingTrace_launches _ _, startingTrace_getCalls _ _ hl⟩
    simp [Loop, hList, hs, ha]
  | none =>
    rcases hli : listen t cl events w3 with ⟨tr2, o, w4⟩
    refine ⟨ps, tr2, hl, ?_, startingTrace_launches _ _, startingTrace_getCalls _ _ hl⟩
    simp [Loop, hList, hs, ha, hli]

theorem starting_phase_launches_witness :
    ∃ positions rest,
      positions.length = (sampleListing.filter
        (fun c => isValidContainer (sampleConfig [] ["gogstash"]) c.Names)).length ∧
      (Loop (sampleConfig [] ["gogstash"]) (sampleClient sampleListing slashName)
          [⟨"start", "api"⟩] 0).trace =
        Action.listContainers ::
          (startingTrace (sampleListing.filter
              (fun c => isValidContainer (sampleConfig [] ["gogstash"]) c.Names)) positions ++
            Action.addEventListener :: rest) ∧
      launches (startingTrace (sampleListing.filter
          (fun c => isValidContainer (sampleConfig [] ["gogstash"]) c.Names)) positions) =
        List.zipWith (fun c p => (Target.container c, p))
          (sampleListing.filter
            (fun c => isValidContainer (sampleConfig [] ["gogstash"]) c.Names)) positions ∧
      getCalls (startingTrace (sampleListing.filter
          (fun c => isValidContainer (sampleConfig [] ["gogstash"]) c.Names)) positions) =
        (sampleListing.filter
          (fun c => isValidContainer (sampleConfig [] ["gogstash"]) c.Names)).map
            (fun c => c.ID) :=
  starting_phase_launches (sampleConfig [] ["gogstash"]) (sampleClient sampleListing slashName)
    [⟨"start", "api"⟩] 0 1 sampleListing rfl (fun _ w => ⟨w, w + 1, rfl⟩)

end Inputdocker
